import Mathlib

/-!
Shallow embedding of the `icon-cache` crate (src/lib.rs, src/raw.rs): a
zero-copy decoder for the GTK icon-theme cache file format, with a
hash-bucket lookup over collision chains.

The byte buffer is a `List Nat` (each entry one byte, big-endian multi-byte
fields).  An `Offset<V, T>` of the source is the plain `Nat` value of its
`offset` field; the phantom target type is reflected in which resolution
function is applied.

Fallible Rust operations are modelled by `Res`: `Res.panics` marks a Rust
panic (in the source, `Offset::at`/`str_at`/`path_at` slice
`&bytes[offset..]` before any check, which panics when `offset` exceeds the
buffer length; slice indexing such as `self.hash.icon[bucket]` panics when
the index is outside the physical slice; `hash % n_buckets` panics when
`n_buckets` is zero).  `Res.err` is a returned `Err`/`None`.

zerocopy semantics captured here: `try_ref_from_prefix` (and
`ref_from_prefix`) for a type ending in a trailing slice succeeds whenever
the fixed part fits in `bytes[offset..]`, and sizes the trailing slice
greedily to the largest element count that fits in the remaining physical
bytes — the record's own embedded count field (`n_buckets`, `n_directories`,
`n_images`) is NOT consulted.  All the field types used have alignment 1, so
alignment never fails.  Unbounded Rust iteration (`Icon::iter`, chain
walking inside `IconCache::icon` and `IconCache::iter`) is modelled with
explicit fuel; exhausting the fuel is reported as a distinct outcome so that
divergence is observable.
-/

/-- Outcome of a fallible Rust computation: a panic, a returned
`Err`/`None`, or success. -/
inductive Res (α : Type) where
  | panics : Res α
  | err : Res α
  | ok (val : α) : Res α
deriving DecidableEq

/-- Read one byte of the buffer (callers check bounds first, matching the
source where every read is preceded by zerocopy's size check). -/
def byteAt (bytes : List Nat) (i : Nat) : Nat := bytes.getD i 0

/-- Big-endian u16 at byte position `i` (zerocopy `U16` network order). -/
def readU16 (bytes : List Nat) (i : Nat) : Nat :=
  byteAt bytes i * 256 + byteAt bytes (i + 1)

/-- Big-endian u32 at byte position `i` (zerocopy `U32` network order). -/
def readU32 (bytes : List Nat) (i : Nat) : Nat :=
  ((byteAt bytes i * 256 + byteAt bytes (i + 1)) * 256 + byteAt bytes (i + 2)) * 256
    + byteAt bytes (i + 3)

namespace Raw

/-- raw::Header — 12 bytes: major u16, minor u16, two u32 offsets. -/
structure Header where
  major_version : Nat
  minor_version : Nat
  hash : Nat
  directory_list : Nat
deriving DecidableEq

/-- raw::Hash — `n_buckets: U32` then a trailing slice of u32 offsets.
`icon` is the PHYSICAL slice zerocopy constructs (greedy, to the end of the
buffer), not `n_buckets` entries. -/
structure Hash where
  n_buckets : Nat
  icon : List Nat
deriving DecidableEq

/-- raw::Icon — 12 bytes: chain, name, image_list offsets. -/
structure Icon where
  chain : Nat
  name : Nat
  image_list : Nat
deriving DecidableEq

/-- raw::DirectoryList — `n_directories: U32` then a trailing slice of u32
path offsets; `directory` is the physical slice. -/
structure DirectoryList where
  n_directories : Nat
  directory : List Nat
deriving DecidableEq

/-- raw::Image — 8 bytes: directory_index u16, icon_flags u16,
image_data u32 offset. -/
structure Image where
  directory_index : Nat
  icon_flags : Nat
  image_data : Nat
deriving DecidableEq

/-- raw::ImageList — `n_images: U32` then a trailing slice of Image;
`images` is the physical slice. -/
structure ImageList where
  n_images : Nat
  images : List Image
deriving DecidableEq

/-- raw::ImageData — 16 bytes: four u32 offsets. -/
structure ImageData where
  image_pixel_data : Nat
  image_meta_data : Nat
  image_pixel_data_type : Nat
  image_pixel_data_length : Nat
deriving DecidableEq

/-- raw::MetaData — 12 bytes: three u32 offsets. -/
structure MetaData where
  embedded_rect : Nat
  attach_point_list : Nat
  display_name_list : Nat
deriving DecidableEq

/-- Offset::is_null — `self.offset == 0 || self.offset == 0xFFFFFFFF`. -/
def is_null (off : Nat) : Bool := off == 0 || off == 4294967295

/-- Offset::at for a Header target (also `Header::ref_from_prefix` at
offset 0): panics when the offset exceeds the buffer, errs when fewer than
12 bytes remain. -/
def headerAt (bytes : List Nat) (off : Nat) : Res Header :=
  if bytes.length < off then .panics
  else if bytes.length - off < 12 then .err
  else .ok { major_version := readU16 bytes off, minor_version := readU16 bytes (off + 2),
             hash := readU32 bytes (off + 4), directory_list := readU32 bytes (off + 8) }

/-- Offset::at for a Hash target: fixed 4-byte count, then the greedy
physical slice of u32 bucket slots. -/
def hashAt (bytes : List Nat) (off : Nat) : Res Hash :=
  if bytes.length < off then .panics
  else if bytes.length - off < 4 then .err
  else .ok { n_buckets := readU32 bytes off,
             icon := (List.range ((bytes.length - off - 4) / 4)).map
               (fun i => readU32 bytes (off + 4 + 4 * i)) }

/-- Offset::at for a DirectoryList target: fixed 4-byte count, then the
greedy physical slice of u32 path offsets. -/
def directoryListAt (bytes : List Nat) (off : Nat) : Res DirectoryList :=
  if bytes.length < off then .panics
  else if bytes.length - off < 4 then .err
  else .ok { n_directories := readU32 bytes off,
             directory := (List.range ((bytes.length - off - 4) / 4)).map
               (fun i => readU32 bytes (off + 4 + 4 * i)) }

/-- Offset::at for an Icon target: fixed 12 bytes. -/
def iconAt (bytes : List Nat) (off : Nat) : Res Icon :=
  if bytes.length < off then .panics
  else if bytes.length - off < 12 then .err
  else .ok { chain := readU32 bytes off, name := readU32 bytes (off + 4),
             image_list := readU32 bytes (off + 8) }

/-- Offset::at for an ImageList target: fixed 4-byte count, then the greedy
physical slice of 8-byte Image records. -/
def imageListAt (bytes : List Nat) (off : Nat) : Res ImageList :=
  if bytes.length < off then .panics
  else if bytes.length - off < 4 then .err
  else .ok { n_images := readU32 bytes off,
             images := (List.range ((bytes.length - off - 4) / 8)).map
               (fun i => { directory_index := readU16 bytes (off + 4 + 8 * i),
                           icon_flags := readU16 bytes (off + 4 + 8 * i + 2),
                           image_data := readU32 bytes (off + 4 + 8 * i + 4) }) }

/-- Offset::at for an ImageData target: fixed 16 bytes. -/
def imageDataAt (bytes : List Nat) (off : Nat) : Res ImageData :=
  if bytes.length < off then .panics
  else if bytes.length - off < 16 then .err
  else .ok { image_pixel_data := readU32 bytes off, image_meta_data := readU32 bytes (off + 4),
             image_pixel_data_type := readU32 bytes (off + 8),
             image_pixel_data_length := readU32 bytes (off + 12) }

/-- Offset::at for a MetaData target: fixed 12 bytes. -/
def metaDataAt (bytes : List Nat) (off : Nat) : Res MetaData :=
  if bytes.length < off then .panics
  else if bytes.length - off < 12 then .err
  else .ok { embedded_rect := readU32 bytes off, attach_point_list := readU32 bytes (off + 4),
             display_name_list := readU32 bytes (off + 8) }

/-- Offset::at for the unit target `()` (zero-size): succeeds whenever the
slice exists, i.e. whenever the offset does not exceed the buffer. -/
def unitAt (bytes : List Nat) (off : Nat) : Res Unit :=
  if bytes.length < off then .panics else .ok ()

/-- Offset::str_at — `CStr::from_bytes_until_nul(&bytes[offset..])`: panics
when the offset exceeds the buffer, errs when no nul terminator follows,
otherwise the bytes strictly before the first nul. -/
def strAt (bytes : List Nat) (off : Nat) : Res (List Nat) :=
  if bytes.length < off then .panics
  else if (bytes.drop off).contains 0 then .ok ((bytes.drop off).takeWhile (fun b => b != 0))
  else .err

/-- One step of the UTF-8 acceptor used by `str::from_utf8`:
`need k lo hi` means `k` continuation bytes remain and the next one must lie
in `lo..hi` (later ones in 128..191). -/
inductive Utf8State where
  | start : Utf8State
  | need (k : Nat) (lo hi : Nat) : Utf8State
deriving DecidableEq

/-- Transition of the UTF-8 acceptor (Rust std validation: C2..DF lead
2-byte, E0 A0..BF, E1..EC 80..BF, ED 80..9F, EE..EF 80..BF lead 3-byte,
F0 90..BF, F1..F3 80..BF, F4 80..8F lead 4-byte). -/
def utf8Step (s : Utf8State) (b : Nat) : Option Utf8State :=
  match s with
  | .start =>
    if b ≤ 127 then some .start
    else if 194 ≤ b ∧ b ≤ 223 then some (.need 1 128 191)
    else if b = 224 then some (.need 2 160 191)
    else if 225 ≤ b ∧ b ≤ 236 then some (.need 2 128 191)
    else if b = 237 then some (.need 2 128 159)
    else if 238 ≤ b ∧ b ≤ 239 then some (.need 2 128 191)
    else if b = 240 then some (.need 3 144 191)
    else if 241 ≤ b ∧ b ≤ 243 then some (.need 3 128 191)
    else if b = 244 then some (.need 3 128 143)
    else none
  | .need k lo hi =>
    if lo ≤ b ∧ b ≤ hi then
      if k ≤ 1 then some .start else some (.need (k - 1) 128 191)
    else none

/-- Run the UTF-8 acceptor over a byte list. -/
def utf8Loop : Utf8State → List Nat → Bool
  | s, [] => s == .start
  | s, b :: rest =>
    match utf8Step s b with
    | none => false
    | some s2 => utf8Loop s2 rest

/-- Whole-list UTF-8 validity, as `CStr::to_str` checks it. -/
def validUtf8 (l : List Nat) : Bool := utf8Loop .start l

/-- Offset::path_at — `str_at` then `CStr::to_str` (UTF-8 validation);
`Err` cases are already `None` in the source (`.ok()?`). -/
def pathAt (bytes : List Nat) (off : Nat) : Res (List Nat) :=
  match strAt bytes off with
  | .panics => .panics
  | .err => .err
  | .ok s => if validUtf8 s then .ok s else .err

end Raw

/-- One update of `icon_str_hash`:
`h = (h << 5).overflowing_sub(h).0.overflowing_add(p).0` on u32, written
with each wrapping operation explicit (`h` is a u32, so `h < 2^32` at every
call in the source). -/
def hash_step (h p : Nat) : Nat :=
  ((h * 32 % 4294967296 + 4294967296 - h) % 4294967296 + p) % 4294967296

/-- icon_str_hash (src/lib.rs): 0 for the empty key, otherwise seed with the
first byte and fold `hash_step` over the rest. -/
def icon_str_hash (key : List Nat) : Nat :=
  match key with
  | [] => 0
  | b :: rest => rest.foldl hash_step b

/-- The parsed cache facade (IconCache): the buffer plus the three
top-level records resolved at parse time. -/
structure IconCache where
  bytes : List Nat
  header : Raw.Header
  hash : Raw.Hash
  directory_list : Raw.DirectoryList
deriving DecidableEq

/-- IconCache::new_from_bytes — resolve the Header at the start, then the
Hash table and the DirectoryList at the header's offsets.  No check of
`major_version` and no check of `n_buckets` appears in the source. -/
def IconCache.new_from_bytes (bytes : List Nat) : Res IconCache :=
  match Raw.headerAt bytes 0 with
  | .panics => .panics
  | .err => .err
  | .ok header =>
    match Raw.hashAt bytes header.hash with
    | .panics => .panics
    | .err => .err
    | .ok hash =>
      match Raw.directoryListAt bytes header.directory_list with
      | .panics => .panics
      | .err => .err
      | .ok directory_list =>
        .ok { bytes := bytes, header := header, hash := hash,
              directory_list := directory_list }

/-- Head of a bucket's chain as IconCache::icon_chain computes it: the
physical-slice indexing `self.hash.icon[bucket]` panics when the bucket is
outside the physical slice; a null slot or a failed resolution is an empty
bucket. -/
inductive ChainHead where
  | panics : ChainHead
  | empty : ChainHead
  | head (i : Raw.Icon) : ChainHead
deriving DecidableEq

/-- IconCache::icon_chain. -/
def IconCache.icon_chain (c : IconCache) (bucket : Nat) : ChainHead :=
  match c.hash.icon.get? bucket with
  | none => .panics
  | some off =>
    if Raw.is_null off then .empty
    else
      match Raw.iconAt c.bytes off with
      | .panics => .panics
      | .err => .empty
      | .ok i => .head i

/-- What Icon::iter's closure computes before yielding the current icon: a
null chain offset stops after the current icon, a failed resolution stops
after the current icon (`.ok()` maps `Err` to `None`), an out-of-buffer
offset panics before the current icon is yielded. -/
inductive ChainSucc where
  | panic : ChainSucc
  | stop : ChainSucc
  | next (i : Raw.Icon) : ChainSucc
deriving DecidableEq

/-- Successor computation of Icon::iter. -/
def succOf (bytes : List Nat) (i : Raw.Icon) : ChainSucc :=
  if Raw.is_null i.chain then .stop
  else
    match Raw.iconAt bytes i.chain with
    | .panics => .panic
    | .err => .stop
    | .ok n => .next n

/-- How a fueled walk or iteration ended. -/
inductive WalkStatus where
  | completed : WalkStatus
  | panicked : WalkStatus
  | fuel : WalkStatus
deriving DecidableEq

/-- The sequence of raw icons Icon::iter yields, with fuel: the source's
iterator is unbounded, so a cyclic chain exhausts any fuel.  The successor
is resolved before the current icon is yielded (as in the source), so a
panic while resolving the next link suppresses the current icon too. -/
def chainWalk (bytes : List Nat) : Nat → Raw.Icon → List Raw.Icon × WalkStatus
  | 0, _ => ([], .fuel)
  | f + 1, i =>
    match succOf bytes i with
    | .panic => ([], .panicked)
    | .stop => ([i], .completed)
    | .next n =>
      let r := chainWalk bytes f n
      (i :: r.1, r.2)

/-- The user-facing Icon view: resolved name bytes plus the raw image list
(lib.rs `Icon` / `ImageList::from_icon`). -/
structure Icon where
  name : List Nat
  image_list : Raw.ImageList
deriving DecidableEq

/-- Outcome of IconCache::icon with fuel: `fuel` marks a walk the source
would never finish. -/
inductive Lookup where
  | panics : Lookup
  | fuel : Lookup
  | found (icon : Icon) : Lookup
  | notFound : Lookup
deriving DecidableEq

/-- The chain-walking loop of IconCache::icon, with fuel.  Per yielded icon
(successor already resolved): a name that fails to decode is skipped
(`continue`); a name equal to the query returns the view, where a failing
`ImageList::from_icon` aborts the WHOLE lookup with `None` (the `?`
operator); otherwise the walk advances. -/
def iconSearch (bytes q : List Nat) : Nat → Raw.Icon → Lookup
  | 0, _ => .fuel
  | f + 1, i =>
    match succOf bytes i with
    | .panic => .panics
    | .stop =>
      match Raw.strAt bytes i.name with
      | .panics => .panics
      | .err => .notFound
      | .ok nm =>
        if nm = q then
          match Raw.imageListAt bytes i.image_list with
          | .panics => .panics
          | .err => .notFound
          | .ok il => .found { name := nm, image_list := il }
        else .notFound
    | .next n =>
      match Raw.strAt bytes i.name with
      | .panics => .panics
      | .err => iconSearch bytes q f n
      | .ok nm =>
        if nm = q then
          match Raw.imageListAt bytes i.image_list with
          | .panics => .panics
          | .err => .notFound
          | .ok il => .found { name := nm, image_list := il }
        else iconSearch bytes q f n

/-- IconCache::icon — `hash % n_buckets` panics when `n_buckets = 0`
(no guard exists in the source); otherwise walk the bucket's chain. -/
def IconCache.icon (c : IconCache) (icon_name : List Nat) (f : Nat) : Lookup :=
  if c.hash.n_buckets = 0 then .panics
  else
    match c.icon_chain (icon_str_hash icon_name % c.hash.n_buckets) with
    | .panics => .panics
    | .empty => .notFound
    | .head h => iconSearch c.bytes icon_name f h

/-- The filter_map body of IconCache::iter applied to a yielded raw-icon
list: a name or image-list that fails to decode skips the entry, an
out-of-buffer offset panics (second component true). -/
def decodeViews (bytes : List Nat) : List Raw.Icon → List Icon × Bool
  | [] => ([], false)
  | i :: rest =>
    match Raw.strAt bytes i.name with
    | .panics => ([], true)
    | .err => decodeViews bytes rest
    | .ok nm =>
      match Raw.imageListAt bytes i.image_list with
      | .panics => ([], true)
      | .err => decodeViews bytes rest
      | .ok il =>
        let r := decodeViews bytes rest
        ({ name := nm, image_list := il } :: r.1, r.2)

/-- IconCache::iter over an explicit bucket list: per bucket, resolve the
chain head, walk the chain (with fuel), decode the yielded icons; a panic
or fuel exhaustion anywhere stops the whole iteration there, as the lazy
source iterator would. -/
def IconCache.iterGo (c : IconCache) (f : Nat) : List Nat → List Icon × WalkStatus
  | [] => ([], .completed)
  | b :: rest =>
    match c.icon_chain b with
    | .panics => ([], .panicked)
    | .empty => c.iterGo f rest
    | .head h =>
      let w := chainWalk c.bytes f h
      let d := decodeViews c.bytes w.1
      if d.2 then (d.1, .panicked)
      else
        match w.2 with
        | .panicked => (d.1, .panicked)
        | .fuel => (d.1, .fuel)
        | .completed =>
          let r := c.iterGo f rest
          (d.1 ++ r.1, r.2)

/-- IconCache::iter — all buckets `0..n_buckets` in order. -/
def IconCache.iter (c : IconCache) (f : Nat) : List Icon × WalkStatus :=
  c.iterGo f (List.range c.hash.n_buckets)

/-- DirectoryList::dir — index checked against the DECLARED count
`n_directories`; the physical-slice indexing below it panics if the
physical slice is shorter. -/
def DirectoryList.dir (bytes : List Nat) (dl : Raw.DirectoryList) (idx : Nat) : Res (List Nat) :=
  if dl.n_directories ≤ idx then .err
  else
    match dl.directory.get? idx with
    | none => .panics
    | some off => Raw.pathAt bytes off

/-- The user-facing ImageData view (pixel fields are opaque `()`). -/
structure ImageData where
  image_pixel_data : Unit
  image_meta_data : Raw.MetaData
  image_pixel_data_type : Unit
  image_pixel_data_length : Unit
deriving DecidableEq

/-- The user-facing Image view. -/
structure Image where
  directory : List Nat
  icon_flags : Nat
  image_data : Option ImageData
deriving DecidableEq

/-- ImageList::image — the image index is checked against the declared
`n_images` (then the physical slice is indexed, panicking if shorter); the
directory is resolved by indexing the directory list's PHYSICAL slice with
`directory_index` with NO check against `n_directories`; the image-data
offset is compared with 0 only (not `is_null`), and when non-zero every
nested offset is resolved, `Err` becoming `None` and out-of-buffer offsets
panicking. -/
def ImageList.image (bytes : List Nat) (il : Raw.ImageList) (idx : Nat) : Res Image :=
  if il.n_images ≤ idx then .err
  else
    match il.images.get? idx with
    | none => .panics
    | some raw_image =>
      match Raw.headerAt bytes 0 with
      | .panics => .panics
      | .err => .err
      | .ok header =>
        match Raw.directoryListAt bytes header.directory_list with
        | .panics => .panics
        | .err => .err
        | .ok directory_list =>
          match directory_list.directory.get? raw_image.directory_index with
          | none => .panics
          | some doff =>
            match Raw.pathAt bytes doff with
            | .panics => .panics
            | .err => .err
            | .ok directory =>
              if raw_image.image_data ≠ 0 then
                match Raw.imageDataAt bytes raw_image.image_data with
                | .panics => .panics
                | .err => .err
                | .ok idata =>
                  match Raw.unitAt bytes idata.image_pixel_data with
                  | .panics => .panics
                  | .err => .err
                  | .ok u1 =>
                    match Raw.metaDataAt bytes idata.image_meta_data with
                    | .panics => .panics
                    | .err => .err
                    | .ok md =>
                      match Raw.unitAt bytes idata.image_pixel_data_type with
                      | .panics => .panics
                      | .err => .err
                      | .ok u2 =>
                        match Raw.unitAt bytes idata.image_pixel_data_length with
                        | .panics => .panics
                        | .err => .err
                        | .ok u3 =>
                          .ok { directory := directory,
                                icon_flags := raw_image.icon_flags,
                                image_data := some ⟨u1, md, u2, u3⟩ }
              else
                .ok { directory := directory, icon_flags := raw_image.icon_flags,
                      image_data := none }

/-- Name comparison of the lookup loop: the resolved name bytes equal the
query (false when the name does not resolve). -/
def nameMatches (bytes q : List Nat) (i : Raw.Icon) : Bool :=
  match Raw.strAt bytes i.name with
  | .ok nm => nm == q
  | _ => false

/-- Extract the cache a successful parse produced (fallback value for
buffers that do not parse; used only to name concrete parsed caches). -/
def getCache (b : List Nat) : IconCache :=
  match IconCache.new_from_bytes b with
  | .ok c => c
  | _ => { bytes := [], header := ⟨0, 0, 0, 0⟩, hash := ⟨0, []⟩, directory_list := ⟨0, []⟩ }

/-- Extract a parsed image list at an offset (fallback for failures). -/
def getImageList (b : List Nat) (off : Nat) : Raw.ImageList :=
  match Raw.imageListAt b off with
  | .ok il => il
  | _ => ⟨0, []⟩

/-- Extract a parsed directory list at an offset (fallback for failures). -/
def getDirList (b : List Nat) (off : Nat) : Raw.DirectoryList :=
  match Raw.directoryListAt b off with
  | .ok dl => dl
  | _ => ⟨0, []⟩

/-- "hello world" as bytes. -/
def helloWorld : List Nat := [104, 101, 108, 108, 111, 32, 119, 111, 114, 108, 100]

/-- A well-formed 44-byte cache: header (major 1, hash at 12, directories
at 40), one bucket whose slot points at an icon named "a" (nul-terminated
at 32) with an empty image list at 34 and a null chain; empty directory
list. -/
def bufWF : List Nat :=
  [0, 1, 0, 0, 0, 0, 0, 12, 0, 0, 0, 40,
   0, 0, 0, 1,
   0, 0, 0, 20,
   255, 255, 255, 255, 0, 0, 0, 32, 0, 0, 0, 34,
   97, 0,
   0, 0, 0, 0,
   0, 0,
   0, 0, 0, 0]

/-- A 12-byte buffer that is exactly a header whose hash offset (100)
exceeds the buffer length. -/
def bufC1 : List Nat := [0, 1, 0, 0, 0, 0, 0, 100, 0, 0, 0, 12]

/-- A 20-byte buffer whose hash table declares 1000 buckets while only one
physical slot (value 0) fits in the buffer. -/
def bufC1b : List Nat :=
  [0, 1, 0, 0, 0, 0, 0, 12, 0, 0, 0, 20, 0, 0, 3, 232, 0, 0, 0, 0]

/-- A 44-byte cache whose single bucket's icon (at offset 20) has its chain
offset pointing back at itself (20): a cyclic collision chain. -/
def bufC2 : List Nat :=
  [0, 1, 0, 0, 0, 0, 0, 12, 0, 0, 0, 40,
   0, 0, 0, 1,
   0, 0, 0, 20,
   0, 0, 0, 20, 0, 0, 0, 32, 0, 0, 0, 34,
   97, 0,
   0, 0, 0, 0,
   0, 0,
   0, 0, 0, 0]

/-- A 20-byte cache whose hash table declares zero buckets. -/
def bufC3 : List Nat :=
  [0, 1, 0, 0, 0, 0, 0, 12, 0, 0, 0, 16, 0, 0, 0, 0, 0, 0, 0, 0]

/-- A 20-byte cache whose header declares major version 2 (otherwise
well-formed: one bucket, empty slot semantics aside, empty directories). -/
def bufC4 : List Nat :=
  [0, 2, 0, 0, 0, 0, 0, 12, 0, 0, 0, 16, 0, 0, 0, 1, 0, 0, 0, 0]

/-- A 46-byte cache whose directory list (at 38) declares 0 directories but
is followed by one physical slot pointing at the path "d" (at 32); an image
list at 20 holds one image with directory_index 0 and no image data. -/
def bufC7 : List Nat :=
  [0, 1, 0, 0, 0, 0, 0, 12, 0, 0, 0, 38,
   0, 0, 0, 1,
   0, 0, 0, 0,
   0, 0, 0, 1,
   0, 0, 0, 0, 0, 0, 0, 0,
   100, 0,
   0, 0, 0, 0,
   0, 0, 0, 0,
   0, 0, 0, 32]

/-- A 46-byte cache like bufC7 but declaring one directory (slot at 42
pointing at "d"), whose single image carries image_data = 0xFFFFFFFF. -/
def bufC8 : List Nat :=
  [0, 1, 0, 0, 0, 0, 0, 12, 0, 0, 0, 38,
   0, 0, 0, 1,
   0, 0, 0, 0,
   0, 0, 0, 1,
   0, 0, 0, 0, 255, 255, 255, 255,
   100, 0,
   0, 0, 0, 0,
   0, 0, 0, 1,
   0, 0, 0, 32]

/-- A 54-byte cache whose single bucket chains two icons both named "a"
(nul-terminated at 44): the first (at 20) has an image-list offset of 52
(only 2 bytes remain: resolution errs), the second (at 32) a valid empty
image list at 46. -/
def bufC9 : List Nat :=
  [0, 1, 0, 0, 0, 0, 0, 12, 0, 0, 0, 50,
   0, 0, 0, 1,
   0, 0, 0, 20,
   0, 0, 0, 32, 0, 0, 0, 44, 0, 0, 0, 52,
   255, 255, 255, 255, 0, 0, 0, 44, 0, 0, 0, 46,
   97, 0,
   0, 0, 0, 0,
   0, 0, 0, 0]

/-- A 64-byte cache with two buckets: bucket 0's icon (at 24, named "b" at
48) has chain offset 200, far outside the buffer, so walking bucket 0
panics; bucket 1's icon (at 36, named "a" at 54) is well-formed with an
empty image list at 56. -/
def bufC10 : List Nat :=
  [0, 1, 0, 0, 0, 0, 0, 12, 0, 0, 0, 60,
   0, 0, 0, 2,
   0, 0, 0, 24,
   0, 0, 0, 36,
   0, 0, 0, 200, 0, 0, 0, 48, 0, 0, 0, 50,
   255, 255, 255, 255, 0, 0, 0, 54, 0, 0, 0, 56,
   98, 0,
   0, 0, 0, 0,
   97, 0,
   0, 0, 0, 0,
   0, 0, 0, 0]

example : IconCache.icon (getCache bufWF) [97] 1 = .found ⟨[97], ⟨0, []⟩⟩ := by decide
example : IconCache.new_from_bytes bufC1 = .panics := by decide
example : Raw.hashAt bufC1b 12 = .ok ⟨1000, [0]⟩ := by decide
example : IconCache.new_from_bytes bufC3 = .ok (getCache bufC3) := by decide
example : (getCache bufC3).hash.n_buckets = 0 := by decide
example : IconCache.icon (getCache bufC3) [97] 1 = .panics := by decide
example : IconCache.new_from_bytes bufC4 = .ok (getCache bufC4) := by decide
example : (getCache bufC4).header.major_version = 2 := by decide
example : icon_str_hash helloWorld = 1794106052 := by decide
example : (getDirList bufC7 38).n_directories = 0 := by decide
example : DirectoryList.dir bufC7 (getDirList bufC7 38) 0 = .err := by decide
example : ImageList.image bufC7 (getImageList bufC7 20) 0 = .ok ⟨[100], 0, none⟩ := by decide
example : ImageList.image bufC8 (getImageList bufC8 20) 0 = .panics := by decide
example : (getImageList bufC8 20).images.get? 0 = some ⟨0, 0, 4294967295⟩ := by decide
example : IconCache.icon (getCache bufC9) [97] 5 = .notFound := by decide
example : succOf bufC9 ⟨32, 44, 52⟩ = .next ⟨4294967295, 44, 46⟩ := by decide
example : iconSearch bufC9 [97] 1 ⟨4294967295, 44, 46⟩ = .found ⟨[97], ⟨0, []⟩⟩ := by decide
example : IconCache.icon (getCache bufC10) [97] 1 = .found ⟨[97], ⟨0, []⟩⟩ := by decide
example : IconCache.iter (getCache bufC10) 1 = ([], .panicked) := by decide
example : IconCache.iter (getCache bufC10) 5 = ([], .panicked) := by decide
example : IconCache.iter (getCache bufWF) 1 = ([⟨[97], ⟨0, []⟩⟩], .completed) := by decide
example : IconCache.icon (getCache bufC2) [98] 0 = .fuel := by decide
example : IconCache.icon (getCache bufC2) [98] 7 = .fuel := by decide

/-- C1: out-of-range offsets make Offset::at / Offset::str_at panic on the
slice `&bytes[offset..]` instead of returning a decode error (the panic
reaches IconCache::new_from_bytes), and resolution of a variable-length
record accepts an embedded element count (1000 buckets) that overruns the
buffer (one physical slot) without any validation. -/
theorem offset_resolution_panics_on_oob :
    IconCache.new_from_bytes bufC1 = .panics ∧
    Raw.hashAt bufC1 100 = .panics ∧
    Raw.strAt bufC1 100 = .panics ∧
    Raw.hashAt bufC1b 12 = .ok ⟨1000, [0]⟩ := by decide

/-- Helper for C2: searching the self-looping icon of bufC2 for a name it
does not carry consumes any amount of fuel. -/
theorem bufC2_search_loops (f : Nat) :
    iconSearch bufC2 [98] f ⟨20, 32, 34⟩ = .fuel := by
  induction f with
  | zero => rfl
  | succ f ih =>
    have hs : succOf bufC2 ⟨20, 32, 34⟩ = .next ⟨20, 32, 34⟩ := by decide
    have hn : Raw.strAt bufC2 32 = .ok [97] := by decide
    simp only [iconSearch, hs, hn]
    rw [if_neg (by decide)]
    exact ih

/-- C2: the collision-chain walk of IconCache::icon is NOT bounded — on a
buffer whose chain is a self-loop, the lookup exhausts every fuel bound
instead of terminating with "not found". -/
theorem cyclic_chain_walk_never_terminates (f : Nat) :
    IconCache.icon (getCache bufC2) [98] f = .fuel := by
  have h : IconCache.icon (getCache bufC2) [98] f =
      iconSearch bufC2 [98] f ⟨20, 32, 34⟩ := rfl
  rw [h]
  exact bufC2_search_loops f

/-- C3: a buffer declaring zero hash buckets parses successfully, and the
subsequent lookup computes `hash % 0`, a panic. -/
theorem zero_bucket_table_accepted_then_mod_zero :
    IconCache.new_from_bytes bufC3 = .ok (getCache bufC3) ∧
    (getCache bufC3).hash.n_buckets = 0 ∧
    IconCache.icon (getCache bufC3) [97] 1 = .panics := by decide

/-- C4 counterexample: a buffer declaring major version 2 parses
successfully — the version is never examined. -/
theorem parse_accepts_unsupported_major_version :
    IconCache.new_from_bytes bufC4 = .ok (getCache bufC4) ∧
    (getCache bufC4).header.major_version = 2 := by decide

/-- One wrapping update of the hash equals `(h * 31 + p) mod 2^32` when the
accumulator is a u32 value. -/
theorem hash_step_eq (h p : Nat) (hh : h < 4294967296) :
    hash_step h p = (h * 31 + p) % 4294967296 := by
  unfold hash_step
  omega

/-- The hash accumulator stays below `2^32`. -/
theorem foldl_hash_step_lt (l : List Nat) : ∀ h : Nat, h < 4294967296 →
    l.foldl hash_step h < 4294967296 := by
  induction l with
  | nil => intro h hh; simpa using hh
  | cons b t ih =>
    intro h hh
    simp only [List.foldl_cons]
    exact ih (hash_step h b) (by unfold hash_step; omega)

/-- C5: icon_str_hash hashes the empty string to 0, satisfies the 31-based
recurrence `hash (s ++ [b]) = (hash s * 31 + b) mod 2^32` on byte strings,
and hashes "hello world" to 1794106052. -/
theorem icon_str_hash_spec :
    icon_str_hash [] = 0 ∧
    (∀ (s : List Nat) (b : Nat), (∀ x ∈ s, x < 256) → b < 256 →
      icon_str_hash (s ++ [b]) = (icon_str_hash s * 31 + b) % 4294967296) ∧
    icon_str_hash helloWorld = 1794106052 := by
  refine ⟨rfl, ?_, by decide⟩
  intro s b hs hb
  cases s with
  | nil =>
    have h1 : icon_str_hash ([] ++ [b]) = b := rfl
    have h2 : icon_str_hash [] = 0 := rfl
    rw [h1, h2]
    omega
  | cons a t =>
    have h1 : icon_str_hash ((a :: t) ++ [b]) = hash_step (t.foldl hash_step a) b := by
      simp [icon_str_hash, List.foldl_append]
    have h2 : icon_str_hash (a :: t) = t.foldl hash_step a := rfl
    rw [h1, h2]
    exact hash_step_eq _ b (foldl_hash_step_lt t a (by have := hs a (by simp); omega))

/-- Witness for C5: the recurrence at the concrete bytes "h" ++ "a". -/
theorem icon_str_hash_spec_witness :
    icon_str_hash ([104] ++ [97]) = (icon_str_hash [104] * 31 + 97) % 4294967296 :=
  icon_str_hash_spec.2.1 [104] 97 (by decide) (by decide)

/-- C7: ImageList::image resolves an image's directory_index against the
directory list's physical slice only — on bufC7 the declared directory
count is 0 (so DirectoryList::dir refuses index 0) yet image(0) happily
resolves the directory behind that same index. -/
theorem image_index_not_checked_against_directory_count :
    (getDirList bufC7 38).n_directories = 0 ∧
    DirectoryList.dir bufC7 (getDirList bufC7 38) 0 = .err ∧
    ImageList.image bufC7 (getImageList bufC7 20) 0 = .ok ⟨[100], 0, none⟩ := by decide

/-- C8 counterexample: an image whose image-data pointer is the sentinel
0xFFFFFFFF is NOT treated as absent: resolution is attempted and panics
(the offset exceeds the buffer). -/
theorem image_data_max_sentinel_not_null :
    (getImageList bufC8 20).images.get? 0 = some ⟨0, 0, 4294967295⟩ ∧
    ImageList.image bufC8 (getImageList bufC8 20) 0 = .panics := by decide

/-- C9 counterexample: on bufC9 the first chain entry matches the query
"a" but its image list fails to resolve, and the lookup returns nothing —
even though the next chain link (reachable, shown by succOf) also matches
and decodes fine. -/
theorem matching_entry_with_bad_image_list_aborts_lookup :
    IconCache.icon_chain (getCache bufC9) 0 = .head ⟨32, 44, 52⟩ ∧
    succOf bufC9 ⟨32, 44, 52⟩ = .next ⟨4294967295, 44, 46⟩ ∧
    iconSearch bufC9 [97] 1 ⟨4294967295, 44, 46⟩ = .found ⟨[97], ⟨0, []⟩⟩ ∧
    IconCache.icon (getCache bufC9) [97] 5 = .notFound := by decide

/-- C9 amended: during a chain walk, an entry whose NAME fails to decode is
skipped and the search continues with the next link; but in the lookup an
entry whose name matches the query and whose image list fails to resolve
ends the whole lookup with "not found" instead of continuing; in full
iteration both kinds of malformed entry are skipped (omitted). -/
theorem chain_walk_skip_policy (bytes q : List Nat) :
    (∀ (f : Nat) (i n : Raw.Icon), Raw.strAt bytes i.name = .err →
      succOf bytes i = .next n →
      iconSearch bytes q (f + 1) i = iconSearch bytes q f n) ∧
    (∀ (f : Nat) (i : Raw.Icon), succOf bytes i ≠ .panic →
      Raw.strAt bytes i.name = .ok q →
      Raw.imageListAt bytes i.image_list = .err →
      iconSearch bytes q (f + 1) i = .notFound) ∧
    (∀ (l : List Raw.Icon) (i : Raw.Icon), Raw.strAt bytes i.name = .err →
      decodeViews bytes (i :: l) = decodeViews bytes l) ∧
    (∀ (l : List Raw.Icon) (i : Raw.Icon) (nm : List Nat),
      Raw.strAt bytes i.name = .ok nm →
      Raw.imageListAt bytes i.image_list = .err →
      decodeViews bytes (i :: l) = decodeViews bytes l) := by
  refine ⟨?_, ?_, ?_, ?_⟩
  · intro f i n hname hsucc
    simp only [iconSearch, hsucc, hname]
  · intro f i hsucc hname hil
    cases hs : succOf bytes i with
    | panic => exact absurd hs hsucc
    | stop =>
      simp only [iconSearch, hs, hname, hil]
      simp
    | next n =>
      simp only [iconSearch, hs, hname, hil]
      simp
  · intro l i hname
    simp only [decodeViews, hname]
  · intro l i nm hname hil
    simp only [decodeViews, hname, hil]

/-- Witness for C9's amended statement, on concrete icons over bufC9: a
bad-name entry hands the search to its successor, a matching entry with a
bad image list yields "not found", and both are dropped by iteration's
decode step. -/
theorem chain_walk_skip_policy_witness :
    iconSearch bufC9 [97] 2 ⟨32, 54, 0⟩ = iconSearch bufC9 [97] 1 ⟨4294967295, 44, 46⟩ ∧
    iconSearch bufC9 [97] 3 ⟨4294967295, 44, 52⟩ = .notFound ∧
    decodeViews bufC9 [⟨32, 54, 0⟩] = decodeViews bufC9 [] ∧
    decodeViews bufC9 [⟨4294967295, 44, 52⟩] = decodeViews bufC9 [] := by
  refine ⟨?_, ?_, ?_, ?_⟩
  · exact (chain_walk_skip_policy bufC9 [97]).1 1 ⟨32, 54, 0⟩ ⟨4294967295, 44, 46⟩
      (by decide) (by decide)
  · exact (chain_walk_skip_policy bufC9 [97]).2.1 2 ⟨4294967295, 44, 52⟩
      (by decide) (by decide) (by decide)
  · exact (chain_walk_skip_policy bufC9 [97]).2.2.1 [] ⟨32, 54, 0⟩ (by decide)
  · exact (chain_walk_skip_policy bufC9 [97]).2.2.2 [] ⟨4294967295, 44, 52⟩ [97]
      (by decide) (by decide)

/-- C8 amended: a bucket slot equal to either sentinel (0 or 0xFFFFFFFF) is
an empty bucket; a chain offset equal to either sentinel terminates the
walk after the current icon; an image-data pointer equal to 0 yields an
image view without image data (0xFFFFFFFF is not recognised there — see the
counterexample). -/
theorem null_sentinel_handling (c : IconCache) (bytes : List Nat) :
    (∀ (b off : Nat), c.hash.icon.get? b = some off →
      off = 0 ∨ off = 4294967295 → c.icon_chain b = .empty) ∧
    (∀ (i : Raw.Icon) (f : Nat), i.chain = 0 ∨ i.chain = 4294967295 →
      chainWalk bytes (f + 1) i = ([i], .completed)) ∧
    (∀ (il : Raw.ImageList) (idx : Nat) (img : Raw.Image) (v : Image),
      il.images.get? idx = some img → img.image_data = 0 →
      ImageList.image bytes il idx = .ok v → v.image_data = none) := by
  refine ⟨?_, ?_, ?_⟩
  · intro b off hget hnull
    have hn : Raw.is_null off = true := by
      rcases hnull with h | h <;> subst h <;> rfl
    simp only [IconCache.icon_chain, hget, hn, if_pos]
  · intro i f hnull
    have hn : Raw.is_null i.chain = true := by
      rcases hnull with h | h <;> rw [h] <;> rfl
    have hs : succOf bytes i = .stop := by
      simp only [succOf, hn, if_pos]
    simp only [chainWalk, hs]
  · intro il idx img v hget h0 himg
    unfold ImageList.image at himg
    split at himg
    · exact absurd himg (by simp)
    · rw [hget] at himg
      simp only at himg
      split at himg
      · exact absurd himg (by simp)
      · exact absurd himg (by simp)
      · split at himg
        · exact absurd himg (by simp)
        · exact absurd himg (by simp)
        · split at himg
          · exact absurd himg (by simp)
          · split at himg
            · exact absurd himg (by simp)
            · exact absurd himg (by simp)
            · rw [if_neg (by simp [h0])] at himg
              cases himg
              rfl

/-- Witness for C8's amended statement: bucket 0 of bufC7 holds the slot
value 0 and is empty; an icon whose chain is 0xFFFFFFFF ends the walk after
itself; the bufC7 image (image-data pointer 0) carries no image data. -/
theorem null_sentinel_handling_witness :
    IconCache.icon_chain (getCache bufC7) 0 = .empty ∧
    chainWalk bufWF 1 ⟨4294967295, 32, 34⟩ = ([⟨4294967295, 32, 34⟩], .completed) ∧
    (⟨[100], 0, none⟩ : Image).image_data = none := by
  refine ⟨?_, ?_, ?_⟩
  · exact (null_sentinel_handling (getCache bufC7) bufC7).1 0 0 (by decide) (Or.inl rfl)
  · exact (null_sentinel_handling (getCache bufC7) bufWF).2.1 ⟨4294967295, 32, 34⟩ 0
      (Or.inr rfl)
  · exact (null_sentinel_handling (getCache bufC7) bufC7).2.2 (getImageList bufC7 20) 0
      ⟨0, 0, 0⟩ ⟨[100], 0, none⟩ (by decide) rfl (by decide)

/-- Replace a buffer's first two bytes (the header's major-version field);
buffers shorter than two bytes are unchanged. -/
def withMajor (bytes : List Nat) (hi lo : Nat) : List Nat :=
  match bytes with
  | _ :: _ :: rest => hi :: lo :: rest
  | l => l

/-- Whether a Rust outcome is a success. -/
def Res.isOk {α : Type} : Res α → Bool
  | .ok _ => true
  | _ => false

/-- withMajor keeps the buffer length. -/
theorem withMajor_length (bytes : List Nat) (hi lo : Nat) :
    (withMajor bytes hi lo).length = bytes.length := by
  match bytes with
  | [] => rfl
  | [_] => rfl
  | _ :: _ :: _ => rfl

/-- withMajor keeps every byte from position 2 on. -/
theorem withMajor_byteAt (bytes : List Nat) (hi lo i : Nat) (h2 : 2 ≤ i) :
    byteAt (withMajor bytes hi lo) i = byteAt bytes i := by
  match bytes with
  | [] => rfl
  | [_] => rfl
  | a :: b :: rest =>
    obtain ⟨j, rfl⟩ : ∃ j, i = j + 2 := ⟨i - 2, by omega⟩
    simp [withMajor, byteAt]

/-- withMajor keeps every u32 read at position 2 or later. -/
theorem withMajor_readU32 (bytes : List Nat) (hi lo i : Nat) (h2 : 2 ≤ i) :
    readU32 (withMajor bytes hi lo) i = readU32 bytes i := by
  unfold readU32
  rw [withMajor_byteAt bytes hi lo i h2, withMajor_byteAt bytes hi lo (i + 1) (by omega),
    withMajor_byteAt bytes hi lo (i + 2) (by omega),
    withMajor_byteAt bytes hi lo (i + 3) (by omega)]

/-- Success of hashAt depends only on the buffer length and the offset. -/
theorem hashAt_isOk_congr (W bytes : List Nat) (hlen : W.length = bytes.length)
    (off : Nat) : (Raw.hashAt W off).isOk = (Raw.hashAt bytes off).isOk := by
  unfold Raw.hashAt
  rw [hlen]
  split_ifs <;> simp [Res.isOk]

/-- Success of directoryListAt depends only on the buffer length and the
offset. -/
theorem directoryListAt_isOk_congr (W bytes : List Nat) (hlen : W.length = bytes.length)
    (off : Nat) : (Raw.directoryListAt W off).isOk = (Raw.directoryListAt bytes off).isOk := by
  unfold Raw.directoryListAt
  rw [hlen]
  split_ifs <;> simp [Res.isOk]

/-- Parse succeeds exactly when the 12-byte header fits and the hash-table
and directory-list offsets (read at bytes 4 and 8) resolve. -/
theorem new_from_bytes_isOk (bytes : List Nat) :
    (IconCache.new_from_bytes bytes).isOk =
      (decide (12 ≤ bytes.length) && (Raw.hashAt bytes (readU32 bytes 4)).isOk
        && (Raw.directoryListAt bytes (readU32 bytes 8)).isOk) := by
  unfold IconCache.new_from_bytes
  rcases Nat.lt_or_ge bytes.length 12 with h12 | h12
  · have hA : Raw.headerAt bytes 0 = .err := by
      unfold Raw.headerAt
      rw [if_neg (by omega), if_pos (by omega)]
    rw [hA]
    simp [Res.isOk, Nat.not_le.mpr h12]
  · have hA : Raw.headerAt bytes 0 = .ok ⟨readU16 bytes 0, readU16 bytes 2,
        readU32 bytes 4, readU32 bytes 8⟩ := by
      unfold Raw.headerAt
      rw [if_neg (by omega), if_neg (by omega)]
    rw [hA]
    dsimp only
    cases hh : Raw.hashAt bytes (readU32 bytes 4) with
    | panics => simp [Res.isOk]
    | err => simp [Res.isOk]
    | ok hash =>
      cases hd : Raw.directoryListAt bytes (readU32 bytes 8) with
      | panics => simp [Res.isOk, h12]
      | err => simp [Res.isOk, h12]
      | ok dl => simp [Res.isOk, h12]

/-- C4 amended: parse never examines the major version — replacing the
header's major-version bytes never changes whether parse succeeds — and a
successful parse did resolve the hash table and the directory list at the
header's offsets (the three top-level validations are real; the version
check is not). -/
theorem parse_ignores_major_version :
    (∀ (bytes : List Nat) (c : IconCache), IconCache.new_from_bytes bytes = .ok c →
      12 ≤ bytes.length ∧
      Raw.hashAt bytes c.header.hash = .ok c.hash ∧
      Raw.directoryListAt bytes c.header.directory_list = .ok c.directory_list) ∧
    (∀ (bytes : List Nat) (hi lo : Nat),
      (IconCache.new_from_bytes (withMajor bytes hi lo)).isOk =
        (IconCache.new_from_bytes bytes).isOk) := by
  constructor
  · intro bytes c h
    unfold IconCache.new_from_bytes at h
    split at h
    · simp at h
    · simp at h
    · rename_i header heq1
      split at h
      · simp at h
      · simp at h
      · rename_i hash heq2
        split at h
        · simp at h
        · simp at h
        · rename_i dl heq3
          injection h with h
          subst h
          refine ⟨?_, heq2, heq3⟩
          unfold Raw.headerAt at heq1
          split at heq1
          · simp at heq1
          · split at heq1
            · simp at heq1
            · omega
  · intro bytes hi lo
    have hlen := withMajor_length bytes hi lo
    rw [new_from_bytes_isOk, new_from_bytes_isOk, hlen,
      withMajor_readU32 bytes hi lo 4 (by omega), withMajor_readU32 bytes hi lo 8 (by omega),
      hashAt_isOk_congr (withMajor bytes hi lo) bytes hlen,
      directoryListAt_isOk_congr (withMajor bytes hi lo) bytes hlen]

/-- Witness for C4's amended statement: the bufWF parse resolved its hash
table and directory list, and overwriting bufWF's major version (to 999)
leaves the parse outcome's success unchanged. -/
theorem parse_ignores_major_version_witness :
    (12 ≤ bufWF.length ∧
      Raw.hashAt bufWF (getCache bufWF).header.hash = .ok (getCache bufWF).hash ∧
      Raw.directoryListAt bufWF (getCache bufWF).header.directory_list =
        .ok (getCache bufWF).directory_list) ∧
    (IconCache.new_from_bytes (withMajor bufWF 3 231)).isOk =
      (IconCache.new_from_bytes bufWF).isOk :=
  ⟨parse_ignores_major_version.1 bufWF (getCache bufWF) (by decide),
   parse_ignores_major_version.2 bufWF 3 231⟩

/-- chainWalk step when the current icon's chain is a sentinel or fails to
resolve: the walk ends after the current icon. -/
theorem chainWalk_step_stop (bytes : List Nat) (f : Nat) (i : Raw.Icon)
    (hs : succOf bytes i = .stop) :
    chainWalk bytes (f + 1) i = ([i], .completed) := by
  simp [chainWalk, hs]

/-- chainWalk step when resolving the next link panics. -/
theorem chainWalk_step_panic (bytes : List Nat) (f : Nat) (i : Raw.Icon)
    (hs : succOf bytes i = .panic) :
    chainWalk bytes (f + 1) i = ([], .panicked) := by
  simp [chainWalk, hs]

/-- chainWalk step when the next link resolves. -/
theorem chainWalk_step_next (bytes : List Nat) (f : Nat) (i n : Raw.Icon)
    (hs : succOf bytes i = .next n) :
    chainWalk bytes (f + 1) i = (i :: (chainWalk bytes f n).1, (chainWalk bytes f n).2) := by
  simp [chainWalk, hs]

/-- The lookup loop over a chain whose walk completed and whose every entry
decodes: it returns the view of the first name match (first match wins),
or "not found" when no entry of the chain matches. -/
theorem iconSearch_of_walk (bytes q : List Nat) :
    ∀ (f : Nat) (i : Raw.Icon) (l : List Raw.Icon),
      chainWalk bytes f i = (l, .completed) →
      (∀ j ∈ l, (∃ nm, Raw.strAt bytes j.name = .ok nm) ∧
        (∃ il, Raw.imageListAt bytes j.image_list = .ok il)) →
      ((l.find? (nameMatches bytes q) = none → iconSearch bytes q f i = .notFound) ∧
       (∀ (j : Raw.Icon) (il : Raw.ImageList),
          l.find? (nameMatches bytes q) = some j →
          Raw.imageListAt bytes j.image_list = .ok il →
          iconSearch bytes q f i = .found { name := q, image_list := il })) := by
  intro f
  induction f with
  | zero =>
    intro i l hwalk hdec
    simp [chainWalk] at hwalk
  | succ f ih =>
    intro i l hwalk hdec
    cases hs : succOf bytes i with
    | panic =>
      rw [chainWalk_step_panic bytes f i hs] at hwalk
      simp at hwalk
    | stop =>
      rw [chainWalk_step_stop bytes f i hs] at hwalk
      have hl : l = [i] := by
        have h1 := congrArg Prod.fst hwalk
        simpa using h1.symm
      subst hl
      obtain ⟨⟨nm, hnm⟩, ⟨il0, hil0⟩⟩ := hdec i (by simp)
      by_cases hm : nameMatches bytes q i = true
      · have hnmq : q = nm := by
          unfold nameMatches at hm
          rw [hnm] at hm
          exact (by simpa using hm : nm = q).symm
        subst hnmq
        have hfind : List.find? (nameMatches bytes q) [i] = some i :=
          List.find?_cons_of_pos _ hm
        constructor
        · intro hnone
          rw [hfind] at hnone
          simp at hnone
        · intro j il hsome hil
          rw [hfind] at hsome
          have hji : i = j := by injection hsome
          subst hji
          rw [hil0] at hil
          have hile : il0 = il := by injection hil
          subst hile
          simp only [iconSearch, hs, hnm]
          rw [if_pos trivial, hil0]
      · have hm2 : nameMatches bytes q i = false := by
          cases h : nameMatches bytes q i
          · rfl
          · exact absurd h hm
        have hne : nm ≠ q := by
          intro h
          subst h
          unfold nameMatches at hm2
          rw [hnm] at hm2
          simp at hm2
        have hfind : List.find? (nameMatches bytes q) [i] =
            List.find? (nameMatches bytes q) [] := by
          rw [List.find?_cons_of_neg _ (by simp [hm2])]
        constructor
        · intro _
          simp only [iconSearch, hs, hnm]
          rw [if_neg hne]
        · intro j il hsome hil
          rw [hfind] at hsome
          simp at hsome
    | next n =>
      rw [chainWalk_step_next bytes f i n hs] at hwalk
      have h1 : i :: (chainWalk bytes f n).1 = l := congrArg Prod.fst hwalk
      have h2 : (chainWalk bytes f n).2 = WalkStatus.completed := congrArg Prod.snd hwalk
      have hwn : chainWalk bytes f n = ((chainWalk bytes f n).1, .completed) := by
        rw [← h2]
      subst h1
      obtain ⟨⟨nm, hnm⟩, ⟨il0, hil0⟩⟩ := hdec i (by simp)
      have hdec1 : ∀ j ∈ (chainWalk bytes f n).1,
          (∃ nm2, Raw.strAt bytes j.name = .ok nm2) ∧
          (∃ il2, Raw.imageListAt bytes j.image_list = .ok il2) :=
        fun j hj => hdec j (by simp [hj])
      have IH := ih n (chainWalk bytes f n).1 hwn hdec1
      by_cases hm : nameMatches bytes q i = true
      · have hnmq : q = nm := by
          unfold nameMatches at hm
          rw [hnm] at hm
          exact (by simpa using hm : nm = q).symm
        subst hnmq
        have hfind : List.find? (nameMatches bytes q) (i :: (chainWalk bytes f n).1) =
            some i := List.find?_cons_of_pos _ hm
        constructor
        · intro hnone
          rw [hfind] at hnone
          simp at hnone
        · intro j il hsome hil
          rw [hfind] at hsome
          have hji : i = j := by injection hsome
          subst hji
          rw [hil0] at hil
          have hile : il0 = il := by injection hil
          subst hile
          simp only [iconSearch, hs, hnm]
          rw [if_pos trivial, hil0]
      · have hm2 : nameMatches bytes q i = false := by
          cases h : nameMatches bytes q i
          · rfl
          · exact absurd h hm
        have hne : nm ≠ q := by
          intro h
          subst h
          unfold nameMatches at hm2
          rw [hnm] at hm2
          simp at hm2
        have hfind : List.find? (nameMatches bytes q) (i :: (chainWalk bytes f n).1) =
            List.find? (nameMatches bytes q) (chainWalk bytes f n).1 :=
          List.find?_cons_of_neg _ (by simp [hm2])
        constructor
        · intro hnone
          rw [hfind] at hnone
          simp only [iconSearch, hs, hnm]
          rw [if_neg hne]
          exact IH.1 hnone
        · intro j il hsome hil
          rw [hfind] at hsome
          simp only [iconSearch, hs, hnm]
          rw [if_neg hne]
          exact IH.2 j il hsome hil

/-- C6: when the bucket count is positive, the bucket index
`icon_str_hash q % n_buckets` lies in `[0, n_buckets)`, and the lookup is
determined by that bucket's chain alone: an empty bucket gives "not found";
for a chain whose walk completes and whose every entry decodes (a
well-formed cache), the lookup returns the view of the FIRST entry whose
resolved name byte-equals the query, and "not found" when no entry of that
chain matches. -/
theorem icon_lookup_first_match (c : IconCache) (q : List Nat) (f : Nat)
    (hnb : 0 < c.hash.n_buckets) :
    icon_str_hash q % c.hash.n_buckets < c.hash.n_buckets ∧
    (c.icon_chain (icon_str_hash q % c.hash.n_buckets) = .empty →
      c.icon q f = .notFound) ∧
    (∀ (h : Raw.Icon) (l : List Raw.Icon),
      c.icon_chain (icon_str_hash q % c.hash.n_buckets) = .head h →
      chainWalk c.bytes f h = (l, .completed) →
      (∀ j ∈ l, (∃ nm, Raw.strAt c.bytes j.name = .ok nm) ∧
        (∃ il, Raw.imageListAt c.bytes j.image_list = .ok il)) →
      ((l.find? (nameMatches c.bytes q) = none → c.icon q f = .notFound) ∧
       (∀ (j : Raw.Icon) (il : Raw.ImageList),
          l.find? (nameMatches c.bytes q) = some j →
          Raw.imageListAt c.bytes j.image_list = .ok il →
          c.icon q f = .found { name := q, image_list := il }))) := by
  refine ⟨Nat.mod_lt _ hnb, ?_, ?_⟩
  · intro hempty
    unfold IconCache.icon
    rw [if_neg (by omega), hempty]
  · intro h l hhead hwalk hdec
    have hmain := iconSearch_of_walk c.bytes q f h l hwalk hdec
    constructor
    · intro hfind
      unfold IconCache.icon
      rw [if_neg (by omega), hhead]
      exact hmain.1 hfind
    · intro j il hfind hil
      unfold IconCache.icon
      rw [if_neg (by omega), hhead]
      exact hmain.2 j il hfind hil

/-- Witness for C6 at the concrete well-formed cache bufWF: looking up "a"
returns the single chain entry's view. -/
theorem icon_lookup_first_match_witness :
    IconCache.icon (getCache bufWF) [97] 1 = .found ⟨[97], ⟨0, []⟩⟩ := by
  have hm := icon_lookup_first_match (getCache bufWF) [97] 1 (by decide)
  refine (hm.2.2 ⟨4294967295, 32, 34⟩ [⟨4294967295, 32, 34⟩] (by decide) (by decide) ?_).2
    ⟨4294967295, 32, 34⟩ ⟨0, []⟩ (by decide) (by decide)
  intro j hj
  have hj2 : j = (⟨4294967295, 32, 34⟩ : Raw.Icon) := by simpa using hj
  subst hj2
  exact ⟨⟨[97], by decide⟩, ⟨⟨0, []⟩, by decide⟩⟩

/-- A found lookup names an entry of any completed walk of the same chain
(the search and the walk resolve successors identically): that entry's name
resolves to the found view's name, which is the query. -/
theorem found_in_walk (bytes q : List Nat) :
    ∀ (f : Nat) (i : Raw.Icon) (v : Icon), iconSearch bytes q f i = .found v →
      ∀ (g : Nat) (l : List Raw.Icon), chainWalk bytes g i = (l, .completed) →
      ∃ j ∈ l, Raw.strAt bytes j.name = .ok v.name ∧
        Raw.imageListAt bytes j.image_list = .ok v.image_list ∧ v.name = q := by
  intro f
  induction f with
  | zero =>
    intro i v hsearch
    simp [iconSearch] at hsearch
  | succ f ih =>
    intro i v hsearch g l hwalk
    cases hs : succOf bytes i with
    | panic =>
      simp only [iconSearch, hs] at hsearch
      exact absurd hsearch (by simp)
    | stop =>
      simp only [iconSearch, hs] at hsearch
      cases hname : Raw.strAt bytes i.name with
      | panics => rw [hname] at hsearch; simp at hsearch
      | err => rw [hname] at hsearch; simp at hsearch
      | ok nm =>
        rw [hname] at hsearch
        dsimp only at hsearch
        by_cases hq : nm = q
        · rw [if_pos hq] at hsearch
          cases hil : Raw.imageListAt bytes i.image_list with
          | panics => rw [hil] at hsearch; simp at hsearch
          | err => rw [hil] at hsearch; simp at hsearch
          | ok il =>
            rw [hil] at hsearch
            have hv : ({ name := nm, image_list := il } : Icon) = v := by
              injection hsearch
            cases g with
            | zero => simp [chainWalk] at hwalk
            | succ g =>
              rw [chainWalk_step_stop bytes g i hs] at hwalk
              have hl : l = [i] := by
                have h1 := congrArg Prod.fst hwalk
                simpa using h1.symm
              subst hl
              refine ⟨i, by simp, ?_, ?_, ?_⟩
              · rw [hname, ← hv]
              · rw [hil, ← hv]
              · rw [← hv]; exact hq
        · rw [if_neg hq] at hsearch
          simp at hsearch
    | next n =>
      simp only [iconSearch, hs] at hsearch
      cases hname : Raw.strAt bytes i.name with
      | panics => rw [hname] at hsearch; simp at hsearch
      | err =>
        rw [hname] at hsearch
        dsimp only at hsearch
        cases g with
        | zero => simp [chainWalk] at hwalk
        | succ g =>
          rw [chainWalk_step_next bytes g i n hs] at hwalk
          have h1 : i :: (chainWalk bytes g n).1 = l := congrArg Prod.fst hwalk
          have h2 : (chainWalk bytes g n).2 = WalkStatus.completed := congrArg Prod.snd hwalk
          have hwn : chainWalk bytes g n = ((chainWalk bytes g n).1, .completed) := by
            rw [← h2]
          subst h1
          obtain ⟨j, hj, hrest⟩ := ih n v hsearch g (chainWalk bytes g n).1 hwn
          exact ⟨j, by simp [hj], hrest⟩
      | ok nm =>
        rw [hname] at hsearch
        dsimp only at hsearch
        by_cases hq : nm = q
        · rw [if_pos hq] at hsearch
          cases hil : Raw.imageListAt bytes i.image_list with
          | panics => rw [hil] at hsearch; simp at hsearch
          | err => rw [hil] at hsearch; simp at hsearch
          | ok il =>
            rw [hil] at hsearch
            have hv : ({ name := nm, image_list := il } : Icon) = v := by
              injection hsearch
            cases g with
            | zero => simp [chainWalk] at hwalk
            | succ g =>
              rw [chainWalk_step_next bytes g i n hs] at hwalk
              have h1 : i :: (chainWalk bytes g n).1 = l := congrArg Prod.fst hwalk
              subst h1
              refine ⟨i, by simp, ?_, ?_, ?_⟩
              · rw [hname, ← hv]
              · rw [hil, ← hv]
              · rw [← hv]; exact hq
        · rw [if_neg hq] at hsearch
          cases g with
          | zero => simp [chainWalk] at hwalk
          | succ g =>
            rw [chainWalk_step_next bytes g i n hs] at hwalk
            have h1 : i :: (chainWalk bytes g n).1 = l := congrArg Prod.fst hwalk
            have h2 : (chainWalk bytes g n).2 = WalkStatus.completed := congrArg Prod.snd hwalk
            have hwn : chainWalk bytes g n = ((chainWalk bytes g n).1, .completed) := by
              rw [← h2]
            subst h1
            obtain ⟨j, hj, hrest⟩ := ih n v hsearch g (chainWalk bytes g n).1 hwn
            exact ⟨j, by simp [hj], hrest⟩

/-- In a completed full iteration, every bucket of the list that resolves
to a chain head contributed its decoded chain views to the output. -/
theorem iterGo_bucket (c : IconCache) (f : Nat) :
    ∀ (bs : List Nat) (views : List Icon), c.iterGo f bs = (views, .completed) →
      ∀ b ∈ bs, ∀ (h : Raw.Icon), c.icon_chain b = .head h →
      (chainWalk c.bytes f h).2 = .completed ∧
      (decodeViews c.bytes (chainWalk c.bytes f h).1).2 = false ∧
      ∀ w ∈ (decodeViews c.bytes (chainWalk c.bytes f h).1).1, w ∈ views := by
  intro bs
  induction bs with
  | nil =>
    intro views _ b hb
    simp at hb
  | cons b0 rest ihr =>
    intro views hgo b hb h hh
    simp only [IconCache.iterGo] at hgo
    cases hc0 : c.icon_chain b0 with
    | panics =>
      rw [hc0] at hgo
      have := congrArg Prod.snd hgo
      simp at this
    | empty =>
      rw [hc0] at hgo
      dsimp only at hgo
      rcases List.mem_cons.mp hb with hbb | hbr
      · subst hbb
        rw [hh] at hc0
        simp at hc0
      · exact ihr views hgo b hbr h hh
    | head h0 =>
      rw [hc0] at hgo
      dsimp only at hgo
      cases hd2 : (decodeViews c.bytes (chainWalk c.bytes f h0).1).2 with
      | true =>
        rw [hd2] at hgo
        have := congrArg Prod.snd hgo
        simp at this
      | false =>
        rw [hd2] at hgo
        simp only [Bool.false_eq_true, if_false] at hgo
        cases hw2 : (chainWalk c.bytes f h0).2 with
        | panicked =>
          rw [hw2] at hgo
          have := congrArg Prod.snd hgo
          simp at this
        | fuel =>
          rw [hw2] at hgo
          have := congrArg Prod.snd hgo
          simp at this
        | completed =>
          rw [hw2] at hgo
          dsimp only at hgo
          have hfst := congrArg Prod.fst hgo
          have hsnd := congrArg Prod.snd hgo
          simp only at hfst hsnd
          have hrest : c.iterGo f rest = ((c.iterGo f rest).1, .completed) := by
            rw [← hsnd]
          rcases List.mem_cons.mp hb with hbb | hbr
          · subst hbb
            rw [hh] at hc0
            have hhh : h0 = h := by injection hc0.symm
            subst hhh
            refine ⟨hw2, hd2, ?_⟩
            intro w hw
            rw [← hfst]
            exact List.mem_append_left _ hw
          · obtain ⟨ha, hbp, hsub⟩ := ihr (c.iterGo f rest).1 hrest b hbr h hh
            refine ⟨ha, hbp, ?_⟩
            intro w hw
            rw [← hfst]
            exact List.mem_append_right _ (hsub w hw)

/-- Every member of a yielded raw-icon list whose name and image list
resolve appears, as a view, among the decoded views (when decoding hit no
panic). -/
theorem decodeViews_mem (bytes : List Nat) :
    ∀ (l : List Raw.Icon) (j : Raw.Icon) (nm : List Nat) (il : Raw.ImageList),
      j ∈ l → Raw.strAt bytes j.name = .ok nm →
      Raw.imageListAt bytes j.image_list = .ok il →
      (decodeViews bytes l).2 = false →
      ({ name := nm, image_list := il } : Icon) ∈ (decodeViews bytes l).1 := by
  intro l
  induction l with
  | nil =>
    intro j nm il hj
    simp at hj
  | cons i rest ihr =>
    intro j nm il hj hnm hil hp
    rcases List.mem_cons.mp hj with hji | hjr
    · subst hji
      simp only [decodeViews, hnm, hil] at hp ⊢
      simp
    · cases hsn : Raw.strAt bytes i.name with
      | panics =>
        simp only [decodeViews, hsn] at hp
        exact absurd hp (by simp)
      | err =>
        simp only [decodeViews, hsn] at hp ⊢
        exact ihr j nm il hjr hnm hil hp
      | ok nm0 =>
        cases hsi : Raw.imageListAt bytes i.image_list with
        | panics =>
          simp only [decodeViews, hsn, hsi] at hp
          exact absurd hp (by simp)
        | err =>
          simp only [decodeViews, hsn, hsi] at hp ⊢
          exact ihr j nm il hjr hnm hil hp
        | ok il0 =>
          simp only [decodeViews, hsn, hsi] at hp ⊢
          exact List.mem_cons_of_mem _ (ihr j nm il hjr hnm hil hp)

/-- C10 amended: for every parsed cache, name and fuel bounds, if the
lookup returns an icon and the full iteration completes (it neither panics
nor exhausts its bound), then the iteration yields at least one icon whose
name byte-equals the queried name. -/
theorem lookup_found_implies_iter_yields (c : IconCache) (q : List Nat)
    (f g : Nat) (v : Icon)
    (hfound : c.icon q f = .found v)
    (hiter : (c.iter g).2 = .completed) :
    ∃ w ∈ (c.iter g).1, w.name = q := by
  unfold IconCache.icon at hfound
  by_cases hnb : c.hash.n_buckets = 0
  · rw [if_pos hnb] at hfound
    simp at hfound
  · rw [if_neg hnb] at hfound
    cases hchain : c.icon_chain (icon_str_hash q % c.hash.n_buckets) with
    | panics =>
      rw [hchain] at hfound
      simp at hfound
    | empty =>
      rw [hchain] at hfound
      simp at hfound
    | head h =>
      rw [hchain] at hfound
      dsimp only at hfound
      have hb : icon_str_hash q % c.hash.n_buckets ∈ List.range c.hash.n_buckets :=
        List.mem_range.mpr (Nat.mod_lt _ (Nat.pos_of_ne_zero hnb))
      have hgo : c.iterGo g (List.range c.hash.n_buckets) = ((c.iter g).1, .completed) := by
        have h2 : (c.iterGo g (List.range c.hash.n_buckets)).2 = .completed := hiter
        have h1 : (c.iter g).1 = (c.iterGo g (List.range c.hash.n_buckets)).1 := rfl
        rw [h1, ← h2]
      obtain ⟨hw2, hp, hsub⟩ := iterGo_bucket c g (List.range c.hash.n_buckets)
        (c.iter g).1 hgo _ hb h hchain
      have hwalk : chainWalk c.bytes g h = ((chainWalk c.bytes g h).1, .completed) := by
        rw [← hw2]
      obtain ⟨j, hj, hjn, hji, hvq⟩ := found_in_walk c.bytes q f h v hfound g _ hwalk
      have hmem := decodeViews_mem c.bytes (chainWalk c.bytes g h).1 j v.name v.image_list
        hj hjn hji hp
      exact ⟨⟨v.name, v.image_list⟩, hsub _ hmem, hvq⟩

/-- Witness for C10's amended statement: on bufWF the lookup for "a"
succeeds, iteration with fuel 1 completes, and the yielded views include
one named "a". -/
theorem lookup_found_implies_iter_yields_witness :
    ∃ w ∈ (IconCache.iter (getCache bufWF) 1).1, w.name = [97] :=
  lookup_found_implies_iter_yields (getCache bufWF) [97] 1 1 ⟨[97], ⟨0, []⟩⟩
    (by decide) (by decide)

/-- C10 counterexample: on bufC10 the lookup for "a" (bucket 1) succeeds,
yet the full iteration yields NO icon at all — bucket 0's chain has an
out-of-buffer link, so the iteration panics before reaching bucket 1. -/
theorem iter_misses_lookup_result :
    IconCache.icon (getCache bufC10) [97] 1 = .found ⟨[97], ⟨0, []⟩⟩ ∧
    IconCache.iter (getCache bufC10) 5 = ([], .panicked) := by decide
